import Mathlib

/-!
# udpstream: the framing engine and the session callbacks

A shallow embedding of `udpstream.c`: the session record `struct udp2stream`,
the teardown routine `udp2stream_stop`, the two readiness callbacks
`udp_on_io` (datagram socket readable) and `stream_on_io` (stream input
readable), the two signal callbacks, and the start routine
`udp2stream_start`.

System calls are modelled by the result the kernel hands back (an argument of
the callback) and by an entry in the list of effects the callback returns.
Bytes are natural numbers.  The two function-local `static` packet objects
persist between activations and are part of the process state.
-/

namespace Udpstream

/-! ## Memory of the static packet objects -/

/-- Byte-addressed contents of a C object: offset to byte value. -/
abbrev Mem := Nat → Nat

/-- Zero-initialised storage, as C gives every object of static duration. -/
def Mem.zeroed : Mem := fun _ => 0

/-- Copy the bytes `bs` into the object starting at offset `off`. -/
def Mem.store (m : Mem) (off : Nat) (bs : List Nat) : Mem :=
  fun i => if off ≤ i ∧ i < off + bs.length then bs.getD (i - off) 0 else m i

/-- The `n` bytes of the object starting at offset `off`. -/
def Mem.load (m : Mem) (off n : Nat) : List Nat :=
  (List.range n).map (fun i => m (off + i))

/-! ## Byte order -/

/-- In-memory bytes of `htonl(x)`: the 32-bit value most significant byte first. -/
def htonl (x : Nat) : List Nat :=
  [x / 16777216 % 256, x / 65536 % 256, x / 256 % 256, x % 256]

/-- In-memory bytes of `htons(x)`: the 16-bit value most significant byte first. -/
def htons (x : Nat) : List Nat :=
  [x / 256 % 256, x % 256]

/-- Value of a 32-bit field after `NTOHL`, given the four bytes read into it. -/
def ntohl (bs : List Nat) : Nat :=
  (((bs.getD 0 0 * 256 + bs.getD 1 0) * 256 + bs.getD 2 0) * 256 + bs.getD 3 0) % 4294967296

/-- Value of a 16-bit field after `NTOHS`, given the two bytes read into it. -/
def ntohs (bs : List Nat) : Nat :=
  (bs.getD 0 0 * 256 + bs.getD 1 0) % 65536

/-! ## Session and process state -/

/-- The `enum MODE` of the program. -/
inductive MODE
  | SENDER
  | RECEIVER
deriving DecidableEq, Repr

/-- The scalar members of `struct udp2stream` (the two `struct event` members
are libevent bookkeeping and appear only through the effects). -/
structure udp2stream where
  mode : MODE
  connected : Int
  sock : Int
  streamin : Int
  streamout : Int
deriving DecidableEq, Repr

/-- Process state seen by the callbacks: the session object `self`, whether it
has been released by `free`, the static packet object of `udp_on_io` (offsets
0..7 header, 8.. data), the data area of the static packet object of
`stream_on_io`, and the bytes still pending on the stream input. -/
structure Proc where
  self : udp2stream
  freed : Bool
  udp_packet : Mem
  stream_data : Mem
  input : List Nat

/-- The `errno` values the model distinguishes. -/
inductive Errno
  | EAGAIN
  | EDESTADDRREQ
  | ENOBUFS
  | ECONNREFUSED
  | EIO
deriving DecidableEq, Repr

/-- Calls made by the program, in program order, with the arguments that matter. -/
inductive Effect
  | recvfrom (fd : Int) (len : Nat)
  | connect (fd : Int) (addr : Nat)
  | write (fd : Int) (buf : List Nat)
  | read (fd : Int) (nbytes : Nat)
  | send (fd : Int) (buf : List Nat)
  | warn (msg : String)
  | event_add_sock
  | event_add_stream
  | event_del_sock
  | event_del_stream
  | close (fd : Int)
  | signal_del_sigint
  | signal_del_sigterm
  | free
  | event_loopexit
deriving DecidableEq, Repr

/-- Result of `recvfrom`: `-1`, or a datagram from source `src`. -/
inductive RecvRes
  | error
  | datagram (src : Nat) (payload : List Nat)
deriving DecidableEq, Repr

/-- Result of `read`: `-1`, or the kernel is ready to hand over up to `k` bytes. -/
inductive ReadRes
  | error
  | avail (k : Nat)
deriving DecidableEq, Repr

/-- Result of `send`: the datagram was accepted, or `-1` with `errno`. -/
inductive SendRes
  | sent
  | error (e : Errno)
deriving DecidableEq, Repr

/-- What the kernel answers during one `udp_on_io` activation. -/
structure UdpEnv where
  recv : RecvRes
  connect_ok : Bool
  write_ok : Bool
deriving DecidableEq, Repr

/-- What the kernel answers during one `stream_on_io` activation. -/
structure StreamEnv where
  rd_hdr : ReadRes
  rd_data : ReadRes
  snd : SendRes
deriving DecidableEq, Repr

/-- The libevent flag `EV_READ`. -/
def EV_READ : Nat := 2

/-- The `read` system call on the pending stream input: at most `nbytes` bytes,
at most what the kernel has ready; `none` for a return of `-1`. -/
def sys_read (input : List Nat) (nbytes : Nat) : ReadRes → Option (List Nat × List Nat)
  | .error => none
  | .avail k => some (input.take (min nbytes k), input.drop (min nbytes k))

/-! ## The routines of `udpstream.c` -/

/-- The routine `udp2stream_start`: `calloc` gives a zeroed session (so `connected` is 0
unless the mode is `SENDER`); a failed `calloc` ends the process (`none`).
It is called once from `main`, before any callback ran, so the static packet
objects still hold their initial zeros. -/
def udp2stream_start (calloc_ok : Bool) (mode : MODE) (sock streamin streamout : Int)
    (input : List Nat) : Option (Proc × List Effect) :=
  if calloc_ok then
    some ({ self := { mode := mode
                      connected := if mode = MODE.SENDER then 1 else 0
                      sock := sock
                      streamin := streamin
                      streamout := streamout }
            freed := false
            udp_packet := Mem.zeroed
            stream_data := Mem.zeroed
            input := input },
          [Effect.event_add_sock, Effect.event_add_stream])
  else none

/-- The routine `udp2stream_stop`.  Reading `self->sock` of a session that was already
freed is undefined in C: `none`. -/
def udp2stream_stop (p : Proc) : Option (Proc × List Effect) :=
  if p.freed then none
  else
    let e1 := if 0 ≤ p.self.sock then [Effect.event_del_sock, Effect.close p.self.sock] else []
    let s1 := if 0 ≤ p.self.sock then { p.self with sock := -1 } else p.self
    let e2 := if 0 ≤ s1.streamin then [Effect.event_del_stream] else []
    let s2 := if 0 ≤ s1.streamin then { s1 with streamin := -1 } else s1
    some ({ p with self := s2, freed := true },
          e1 ++ e2 ++ [Effect.signal_del_sigint, Effect.signal_del_sigterm, Effect.free])

/-- The label `on_error` of both callbacks: after the calls `pre`, run
`udp2stream_stop` and return. -/
def on_error (p : Proc) (pre : List Effect) : Option (Proc × List Effect) :=
  (udp2stream_stop p).map (fun r => (r.1, pre ++ r.2))

/-- Lines 235-243 of `udp_on_io`: fill in `magic` and `length` of the static
packet object (`__reserved` is not assigned), then one `write` of the first
`offsetof(struct stream_packet, data[size])` = `8 + size` bytes.  The result of
`write` is only compared with `-1`, so a short count takes the same path as a
complete one. -/
def udp_on_io_emit (p : Proc) (size : Nat) (write_ok : Bool) (pre : List Effect) :
    Option (Proc × List Effect) :=
  let pkt := (p.udp_packet.store 0 (htonl 0xdeadbeaf)).store 4 (htons (size % 65536))
  let p1 := { p with udp_packet := pkt }
  let tr := pre ++ [Effect.write p.self.streamout (pkt.load 0 (8 + size))]
  if write_ok then some (p1, tr)
  else on_error p1 (tr ++ [Effect.warn "write"])

/-- The callback `udp_on_io`. Without `EV_READ` in `evmask` it returns at once;
otherwise it reads `self`, which is undefined once the session is freed
(`none`).  `recvfrom` is given the data area (offset 8) and the length 65535,
so a longer datagram is cut to its first 65535 bytes. -/
def udp_on_io (p : Proc) (evmask : Nat) (env : UdpEnv) : Option (Proc × List Effect) :=
  if evmask &&& EV_READ = 0 then some (p, [])
  else if p.freed then none
  else
    match env.recv with
    | .error => on_error p [Effect.recvfrom p.self.sock 65535, Effect.warn "recv"]
    | .datagram src payload =>
      let got := payload.take 65535
      let p1 := { p with udp_packet := p.udp_packet.store 8 got }
      let tr1 := [Effect.recvfrom p.self.sock 65535]
      if p1.self.connected = 0 then
        let tr2 := tr1 ++ [Effect.connect p.self.sock src]
        if env.connect_ok then
          udp_on_io_emit { p1 with self := { p1.self with connected := 1 } } got.length
            env.write_ok tr2
        else on_error p1 (tr2 ++ [Effect.warn "connect"])
      else udp_on_io_emit p1 got.length env.write_ok tr1

/-- The callback `stream_on_io`.  Without `EV_READ` in `evmask` it returns at once;
otherwise it reads `self`, which is undefined once the session is freed
(`none`).  The header area of its static packet object is overwritten by the
first `read` before it is inspected, so only the data area is carried between
activations.  `send` is given `hdr.length` bytes of the data area, whatever the
second `read` returned. -/
def stream_on_io (p : Proc) (evmask : Nat) (env : StreamEnv) : Option (Proc × List Effect) :=
  if evmask &&& EV_READ = 0 then some (p, [])
  else if p.freed then none
  else
    let tr1 := [Effect.read p.self.streamin 8]
    match sys_read p.input 8 env.rd_hdr with
    | none => on_error p (tr1 ++ [Effect.warn "read"])
    | some (hdr, rest) =>
      let p1 := { p with input := rest }
      if hdr.length = 0 then on_error p1 tr1
      else if hdr.length ≠ 8 then on_error p1 (tr1 ++ [Effect.warn "received partially"])
      else
        let magic := ntohl (hdr.take 4)
        let length := ntohs ((hdr.drop 4).take 2)
        if magic ≠ 0xdeadbeaf then on_error p1 (tr1 ++ [Effect.warn "magic check fail"])
        else
          let tr2 := tr1 ++ [Effect.read p.self.streamin length]
          match sys_read p1.input length env.rd_data with
          | none => on_error p1 (tr2 ++ [Effect.warn "read"])
          | some (got, rest2) =>
            let p2 := { p1 with input := rest2, stream_data := p1.stream_data.store 0 got }
            let tr3 := tr2 ++ [Effect.send p.self.sock (p2.stream_data.load 0 length)]
            match env.snd with
            | .sent => some (p2, tr3)
            | .error e =>
              if e ≠ Errno.EAGAIN then
                on_error p2 (tr3 ++ [Effect.warn "%p: send", Effect.warn "send"])
              else some (p2, tr3)

/-- The callback `on_sigint`: `event_loopexit(0)`; the session is not touched. -/
def on_sigint (p : Proc) : Option (Proc × List Effect) :=
  some (p, [Effect.event_loopexit])

/-- The callback `on_sigterm`: `event_loopexit(0)`; the session is not touched. -/
def on_sigterm (p : Proc) : Option (Proc × List Effect) :=
  some (p, [Effect.event_loopexit])

/-! ## The event loop -/

/-- One callback activation chosen by the event loop. -/
inductive Activation
  | udp (evmask : Nat) (env : UdpEnv)
  | stream (evmask : Nat) (env : StreamEnv)
  | sigint
  | sigterm
deriving DecidableEq, Repr

/-- Call the callback an activation names. -/
def dispatch (p : Proc) : Activation → Option (Proc × List Effect)
  | .udp evmask env => udp_on_io p evmask env
  | .stream evmask env => stream_on_io p evmask env
  | .sigint => on_sigint p
  | .sigterm => on_sigterm p

/-- Successive activations.  `udp2stream_stop` removes every registration, so
once the session is freed the loop has nothing left to call. -/
def run : Proc → List Activation → Option (Proc × List Effect)
  | p, [] => some (p, [])
  | p, a :: rest =>
    if p.freed then some (p, [])
    else
      match dispatch p a with
      | none => none
      | some (p1, e1) =>
        match run p1 rest with
        | none => none
        | some (p2, e2) => some (p2, e1 ++ e2)

/-! ## Observations on effect lists -/

/-- The buffers handed to `write`, with their descriptor, in order. -/
def writes : List Effect → List (Int × List Nat)
  | [] => []
  | Effect.write fd buf :: rest => (fd, buf) :: writes rest
  | _ :: rest => writes rest

/-- The datagrams handed to `send`, with their descriptor, in order. -/
def sends : List Effect → List (Int × List Nat)
  | [] => []
  | Effect.send fd buf :: rest => (fd, buf) :: sends rest
  | _ :: rest => sends rest

/-- The `read` calls, with descriptor and requested count, in order. -/
def reads : List Effect → List (Int × Nat)
  | [] => []
  | Effect.read fd n :: rest => (fd, n) :: reads rest
  | _ :: rest => reads rest

/-- The `connect` calls, in order. -/
def connects : List Effect → List (Int × Nat)
  | [] => []
  | Effect.connect fd a :: rest => (fd, a) :: connects rest
  | _ :: rest => connects rest

/-- The frame layout of the specification: magic `DE AD BE AF`, the payload
length as 16 bits most significant byte first, two zero reserved bytes, then
the payload. -/
def spec_frame (payload : List Nat) : List Nat :=
  [0xDE, 0xAD, 0xBE, 0xAF, payload.length / 256 % 256, payload.length % 256, 0, 0] ++ payload

/-! ## Definitions used by the statements -/

/-- The calls `udp2stream_stop` makes on a live session. -/
def stop_effects (s : udp2stream) : List Effect :=
  (if 0 ≤ s.sock then [Effect.event_del_sock, Effect.close s.sock] else [])
    ++ (if 0 ≤ s.streamin then [Effect.event_del_stream] else [])
    ++ [Effect.signal_del_sigint, Effect.signal_del_sigterm, Effect.free]

/-- The session members as `udp2stream_stop` leaves them. -/
def stopped (s : udp2stream) : udp2stream :=
  { s with sock := if 0 ≤ s.sock then -1 else s.sock
           streamin := if 0 ≤ s.streamin then -1 else s.streamin }

/-- What every activation of `udp_on_io` on a live session keeps. -/
def UdpKeeps (p : Proc) (r : Option (Proc × List Effect)) : Prop :=
  ∃ p1 eff, r = some (p1, eff)
    ∧ p1.udp_packet 6 = p.udp_packet 6 ∧ p1.udp_packet 7 = p.udp_packet 7
    ∧ (p.self.connected ≠ 0 → p1.self.connected = p.self.connected ∧ connects eff = [])
    ∧ sends eff = [] ∧ p1.self.streamout = p.self.streamout

/-- What every activation of `stream_on_io` on a live session keeps. -/
def StreamKeeps (p : Proc) (r : Option (Proc × List Effect)) : Prop :=
  ∃ p1 eff, r = some (p1, eff)
    ∧ p1.udp_packet = p.udp_packet ∧ p1.self.connected = p.self.connected
    ∧ connects eff = [] ∧ writes eff = [] ∧ p1.self.streamout = p.self.streamout

/-- What any sequence of activations keeps: the two reserved header bytes of
the packet object of `udp_on_io`, and a non-zero `connected`. -/
def Keeps (p : Proc) (r : Option (Proc × List Effect)) : Prop :=
  ∃ p1 eff, r = some (p1, eff)
    ∧ p1.udp_packet 6 = p.udp_packet 6 ∧ p1.udp_packet 7 = p.udp_packet 7
    ∧ (p.self.connected ≠ 0 → p1.self.connected = p.self.connected ∧ connects eff = [])
    ∧ p1.self.streamout = p.self.streamout

/-- The calls that only `udp2stream_stop` makes: `event_del`, `close`,
`signal_del` and `free`. -/
def is_teardown : Effect → Bool
  | Effect.event_del_sock => true
  | Effect.event_del_stream => true
  | Effect.close _ => true
  | Effect.signal_del_sigint => true
  | Effect.signal_del_sigterm => true
  | Effect.free => true
  | _ => false

/-- The teardown calls of an effect list, in order. -/
def teardown_calls (eff : List Effect) : List Effect :=
  eff.filter is_teardown

/-- The outcome of activations on a live session, as far as teardown goes:
either the session is still alive, no teardown call was made and the two
descriptors are as before, or the session is freed and the teardown calls made
are those of one `udp2stream_stop`. -/
def TearsOnce (p : Proc) (r : Option (Proc × List Effect)) : Prop :=
  ∃ p1 eff, r = some (p1, eff)
    ∧ ((p1.freed = false ∧ teardown_calls eff = [] ∧ p1.self.sock = p.self.sock
          ∧ p1.self.streamin = p.self.streamin)
      ∨ (p1.freed = true ∧ teardown_calls eff = stop_effects p.self))

/-- A sender session as `main` starts it: socket 3, standard input and output. -/
def sender0 : Proc :=
  { self := { mode := MODE.SENDER, connected := 1, sock := 3, streamin := 0, streamout := 1 }
    freed := false
    udp_packet := Mem.zeroed
    stream_data := Mem.zeroed
    input := [] }

/-- The session `sender0` after it framed the two-byte datagram `[1, 2]`. -/
def sender1 : Proc :=
  { self := { mode := MODE.SENDER, connected := 1, sock := 3, streamin := 0, streamout := 1 }
    freed := false
    udp_packet := ((Mem.zeroed.store 8 [1, 2]).store 0 (htonl 0xdeadbeaf)).store 4 (htons 2)
    stream_data := Mem.zeroed
    input := [] }

/-- A receiver session as `main` starts it, with `input` pending on standard input. -/
def receiver0 (input : List Nat) : Proc :=
  { self := { mode := MODE.RECEIVER, connected := 0, sock := 3, streamin := 0, streamout := 1 }
    freed := false
    udp_packet := Mem.zeroed
    stream_data := Mem.zeroed
    input := input }

/-- Concatenation of the frames of the payloads, in order. -/
def encode_all : List (List Nat) → List Nat
  | [] => []
  | P :: Ps => spec_frame P ++ encode_all Ps

/-- Both reads of the activation return what they are asked for when the
frame of `P` is at the head of the input. -/
def reads_full (P : List Nat) (env : StreamEnv) : Bool :=
  match env.rd_hdr, env.rd_data with
  | ReadRes.avail k1, ReadRes.avail k2 => decide (8 ≤ k1) && decide (P.length ≤ k2)
  | _, _ => false

/-- The test of `stream_on_io` on the result of `send`: `-1` with `errno` other
than `EAGAIN`. -/
def send_fatal : SendRes → Bool
  | SendRes.sent => false
  | SendRes.error e => decide (e ≠ Errno.EAGAIN)

/-- One readable activation of `stream_on_io` per payload, each with full reads
and a `send` that does not fail fatally. -/
def full_activations : List (List Nat) → List Activation → Bool
  | [], [] => true
  | P :: Ps, Activation.stream evmask env :: rest =>
    decide (evmask &&& EV_READ ≠ 0) && reads_full P env && !send_fatal env.snd
      && full_activations Ps rest
  | _, _ => false

/-! ## Lemmas on the packet memory -/

theorem Mem.load_append (m : Mem) (off a b : Nat) :
    m.load off (a + b) = m.load off a ++ m.load (off + a) b := by
  simp only [Mem.load, List.range_add, List.map_append, List.map_map]
  congr 1
  apply List.map_congr_left
  intro i _
  simp [Nat.add_assoc]

theorem Mem.load_congr (m1 m2 : Mem) (off n : Nat)
    (h : ∀ i, i < n → m1 (off + i) = m2 (off + i)) : m1.load off n = m2.load off n := by
  simp only [Mem.load]
  apply List.map_congr_left
  intro i hi
  exact h i (List.mem_range.mp hi)

theorem Mem.load_store_same (m : Mem) (off : Nat) (bs : List Nat) :
    (m.store off bs).load off bs.length = bs := by
  apply List.ext_getElem
  · simp [Mem.load]
  · intro i h1 h2
    simp only [Mem.load, List.getElem_map, List.getElem_range, Mem.store]
    have hi : i < bs.length := h2
    simp [hi, List.getD_eq_getElem]

theorem Mem.store_outside (m : Mem) (off : Nat) (bs : List Nat) (i : Nat)
    (h : i < off ∨ off + bs.length ≤ i) : (m.store off bs) i = m i := by
  simp only [Mem.store]
  rw [if_neg]
  omega

theorem udp_packet_bytes (m : Mem) (got : List Nat) :
    (((m.store 8 got).store 0 (htonl 0xdeadbeaf)).store 4 (htons (got.length % 65536))).load 0
        (8 + got.length)
      = [0xDE, 0xAD, 0xBE, 0xAF, got.length % 65536 / 256 % 256, got.length % 65536 % 256,
          m 6, m 7] ++ got := by
  have h1 : (((m.store 8 got).store 0 (htonl 0xdeadbeaf)).store 4
        (htons (got.length % 65536))).load 0 8
      = [0xDE, 0xAD, 0xBE, 0xAF, got.length % 65536 / 256 % 256, got.length % 65536 % 256,
          m 6, m 7] := by
    simp [Mem.load, Mem.store, htonl, htons, List.range_succ]
  have h : ∀ i, i < got.length →
      (((m.store 8 got).store 0 (htonl 0xdeadbeaf)).store 4 (htons (got.length % 65536)))
        (0 + 8 + i) = (m.store 8 got) (0 + 8 + i) := by
    intro i _
    rw [Mem.store_outside _ 4 _ _ (by simp [htons]; omega),
      Mem.store_outside _ 0 _ _ (by simp [htonl]; omega)]
  have h2 : (((m.store 8 got).store 0 (htonl 0xdeadbeaf)).store 4
        (htons (got.length % 65536))).load (0 + 8) got.length = got := by
    rw [Mem.load_congr _ _ _ _ h]
    exact Mem.load_store_same m 8 got
  rw [Mem.load_append, h1, h2]

/-! ## Lemmas on effect lists and on teardown -/

theorem writes_append (a b : List Effect) : writes (a ++ b) = writes a ++ writes b := by
  induction a with
  | nil => rfl
  | cons x t ih => cases x <;> simp [writes, ih]

theorem sends_append (a b : List Effect) : sends (a ++ b) = sends a ++ sends b := by
  induction a with
  | nil => rfl
  | cons x t ih => cases x <;> simp [sends, ih]

theorem reads_append (a b : List Effect) : reads (a ++ b) = reads a ++ reads b := by
  induction a with
  | nil => rfl
  | cons x t ih => cases x <;> simp [reads, ih]

theorem connects_append (a b : List Effect) : connects (a ++ b) = connects a ++ connects b := by
  induction a with
  | nil => rfl
  | cons x t ih => cases x <;> simp [connects, ih]

theorem stop_effects_quiet (s : udp2stream) :
    writes (stop_effects s) = [] ∧ sends (stop_effects s) = [] ∧ reads (stop_effects s) = []
      ∧ connects (stop_effects s) = [] := by
  unfold stop_effects
  refine ⟨?_, ?_, ?_, ?_⟩ <;> split_ifs <;> rfl

theorem udp2stream_stop_eq (p : Proc) (h : p.freed = false) :
    udp2stream_stop p
      = some ({ p with self := stopped p.self, freed := true }, stop_effects p.self) := by
  by_cases h1 : 0 ≤ p.self.sock <;> by_cases h2 : 0 ≤ p.self.streamin <;>
    simp [udp2stream_stop, stop_effects, stopped, h, h1, h2]

theorem on_error_eq (p : Proc) (pre : List Effect) (h : p.freed = false) :
    on_error p pre
      = some ({ p with self := stopped p.self, freed := true }, pre ++ stop_effects p.self) := by
  simp [on_error, udp2stream_stop_eq p h]

theorem on_error_live (p : Proc) (pre : List Effect) (h : p.freed = false) :
    ∃ p1, on_error p pre = some (p1, pre ++ stop_effects p.self) ∧ p1.freed = true
      ∧ p1.udp_packet = p.udp_packet ∧ p1.stream_data = p.stream_data ∧ p1.input = p.input
      ∧ p1.self.connected = p.self.connected ∧ p1.self.mode = p.self.mode
      ∧ p1.self.streamout = p.self.streamout :=
  ⟨_, on_error_eq p pre h, rfl, rfl, rfl, rfl, rfl, rfl, rfl⟩

/-! ## Lemmas on `udp_on_io` -/

theorem udp_on_io_emit_spec (p : Proc) (size : Nat) (wr : Bool) (pre : List Effect)
    (hlive : p.freed = false) :
    ∃ p1 post, udp_on_io_emit p size wr pre
        = some (p1, pre ++ [Effect.write p.self.streamout
            (((p.udp_packet.store 0 (htonl 0xdeadbeaf)).store 4 (htons (size % 65536))).load 0
              (8 + size))] ++ post)
      ∧ writes post = [] ∧ sends post = [] ∧ connects post = [] ∧ reads post = []
      ∧ p1.freed = !wr
      ∧ p1.udp_packet = (p.udp_packet.store 0 (htonl 0xdeadbeaf)).store 4 (htons (size % 65536))
      ∧ p1.stream_data = p.stream_data ∧ p1.input = p.input
      ∧ p1.self.connected = p.self.connected ∧ p1.self.mode = p.self.mode
      ∧ p1.self.streamout = p.self.streamout := by
  cases wr with
  | true =>
    exact ⟨{ p with udp_packet :=
          (p.udp_packet.store 0 (htonl 0xdeadbeaf)).store 4 (htons (size % 65536)) }, [],
      by simp [udp_on_io_emit], rfl, rfl, rfl, rfl, by simp [hlive], rfl, rfl, rfl,
      rfl, rfl, rfl⟩
  | false =>
    obtain ⟨p1, h1, hf, hu, hs, hi, hc, hm, ho⟩ := on_error_live
      { p with udp_packet :=
          (p.udp_packet.store 0 (htonl 0xdeadbeaf)).store 4 (htons (size % 65536)) }
      (pre ++ [Effect.write p.self.streamout
            (((p.udp_packet.store 0 (htonl 0xdeadbeaf)).store 4 (htons (size % 65536))).load 0
              (8 + size))] ++ [Effect.warn "write"]) hlive
    have hq := stop_effects_quiet p.self
    refine ⟨p1, [Effect.warn "write"] ++ stop_effects p.self, ?_, ?_, ?_, ?_, ?_, ?_, hu, hs, hi,
      hc, hm, ho⟩
    · simp only [udp_on_io_emit, Bool.false_eq_true, if_false]
      rw [h1]
      simp [List.append_assoc]
    · rw [writes_append, hq.1]; rfl
    · rw [sends_append, hq.2.1]; rfl
    · rw [connects_append, hq.2.2.2]; rfl
    · rw [reads_append, hq.2.2.1]; rfl
    · simp [hf]

theorem store_reserved (m : Mem) (got : List Nat) (size : Nat) (i : Nat) (h6 : 6 ≤ i)
    (h8 : i < 8) :
    (((m.store 8 got).store 0 (htonl 0xdeadbeaf)).store 4 (htons size)) i = m i := by
  rw [Mem.store_outside _ 4 _ _ (by simp [htons]; omega),
    Mem.store_outside _ 0 _ _ (by simp [htonl]; omega), Mem.store_outside _ 8 _ _ (by omega)]

/-- What one activation of `udp_on_io` with a received datagram does when it
reaches the `write`: the session is connected already or `connect` succeeds. -/
theorem udp_on_io_datagram (p : Proc) (evmask src : Nat) (d : List Nat) (conn wr : Bool)
    (hlive : p.freed = false) (hev : evmask &&& EV_READ ≠ 0)
    (hc : p.self.connected ≠ 0 ∨ conn = true) :
    ∃ p1 eff, udp_on_io p evmask ⟨RecvRes.datagram src d, conn, wr⟩ = some (p1, eff)
      ∧ writes eff = [(p.self.streamout,
          [0xDE, 0xAD, 0xBE, 0xAF, (d.take 65535).length % 65536 / 256 % 256,
            (d.take 65535).length % 65536 % 256, p.udp_packet 6, p.udp_packet 7]
            ++ d.take 65535)]
      ∧ sends eff = []
      ∧ connects eff = (if p.self.connected = 0 then [(p.self.sock, src)] else [])
      ∧ p1.self.connected = (if p.self.connected = 0 then 1 else p.self.connected)
      ∧ p1.freed = !wr := by
  by_cases h0 : p.self.connected = 0
  · have hconn : conn = true := by
      rcases hc with h | h
      · exact absurd h0 h
      · exact h
    obtain ⟨p1, post, h1, hw, hs, hcn, _, hf, _, _, _, hcc, _, ho⟩ := udp_on_io_emit_spec
      { p with udp_packet := p.udp_packet.store 8 (d.take 65535),
               self := { p.self with connected := 1 } }
      (d.take 65535).length wr
      ([Effect.recvfrom p.self.sock 65535] ++ [Effect.connect p.self.sock src]) hlive
    have hstep : udp_on_io p evmask ⟨RecvRes.datagram src d, conn, wr⟩
        = udp_on_io_emit { p with udp_packet := p.udp_packet.store 8 (d.take 65535),
                                  self := { p.self with connected := 1 } }
            (d.take 65535).length wr
            ([Effect.recvfrom p.self.sock 65535] ++ [Effect.connect p.self.sock src]) := by
      simp only [udp_on_io, hlive, Bool.false_eq_true, if_false, hev, h0, hconn, if_true]
    rw [hstep]
    refine ⟨p1, _, h1, ?_, ?_, ?_, ?_, hf⟩
    · simp only [writes_append, hw, udp_packet_bytes]
      simp [writes]
    · simp only [sends_append, hs]
      simp [sends]
    · simp only [connects_append, hcn, h0]
      simp [connects]
    · simp [hcc, h0]
  · obtain ⟨p1, post, h1, hw, hs, hcn, _, hf, _, _, _, hcc, _, ho⟩ := udp_on_io_emit_spec
      { p with udp_packet := p.udp_packet.store 8 (d.take 65535) }
      (d.take 65535).length wr [Effect.recvfrom p.self.sock 65535] hlive
    have hstep : udp_on_io p evmask ⟨RecvRes.datagram src d, conn, wr⟩
        = udp_on_io_emit { p with udp_packet := p.udp_packet.store 8 (d.take 65535) }
            (d.take 65535).length wr [Effect.recvfrom p.self.sock 65535] := by
      simp only [udp_on_io, hlive, Bool.false_eq_true, if_false, hev, h0]
    rw [hstep]
    refine ⟨p1, _, h1, ?_, ?_, ?_, ?_, hf⟩
    · simp only [writes_append, hw, udp_packet_bytes]
      simp [writes]
    · simp only [sends_append, hs]
      simp [sends]
    · simp only [connects_append, hcn, h0]
      simp [connects]
    · simp [hcc, h0]

theorem udp_on_io_keeps (p : Proc) (evmask : Nat) (env : UdpEnv) (hlive : p.freed = false) :
    UdpKeeps p (udp_on_io p evmask env) := by
  obtain ⟨rc, conn, wr⟩ := env
  have hq := stop_effects_quiet p.self
  by_cases hev : evmask &&& EV_READ = 0
  · exact ⟨p, [], by simp [udp_on_io, hlive, hev], rfl, rfl, fun _ => ⟨rfl, rfl⟩, rfl, rfl⟩
  · cases rc with
    | error =>
      have hstep : udp_on_io p evmask ⟨RecvRes.error, conn, wr⟩
          = on_error p [Effect.recvfrom p.self.sock 65535, Effect.warn "recv"] := by
        simp only [udp_on_io, hlive, hev, Bool.false_eq_true, if_false]
      rw [hstep, on_error_eq p _ hlive]
      refine ⟨_, _, rfl, rfl, rfl, fun _ => ⟨rfl, ?_⟩, ?_, rfl⟩
      · rw [connects_append, hq.2.2.2]; rfl
      · rw [sends_append, hq.2.1]; rfl
    | datagram src d =>
      by_cases h0 : p.self.connected = 0
      · cases conn with
        | false =>
          have hstep : udp_on_io p evmask ⟨RecvRes.datagram src d, false, wr⟩
              = on_error { p with udp_packet := p.udp_packet.store 8 (d.take 65535) }
                  ([Effect.recvfrom p.self.sock 65535] ++ [Effect.connect p.self.sock src]
                    ++ [Effect.warn "connect"]) := by
            simp only [udp_on_io, hlive, hev, h0, Bool.false_eq_true, if_false, if_true]
          rw [hstep, on_error_eq
            { p with udp_packet := p.udp_packet.store 8 (d.take 65535) } _ hlive]
          refine ⟨_, _, rfl, ?_, ?_, fun h => absurd h0 h, ?_, rfl⟩
          · exact Mem.store_outside p.udp_packet 8 (d.take 65535) 6 (by omega)
          · exact Mem.store_outside p.udp_packet 8 (d.take 65535) 7 (by omega)
          · rw [sends_append, hq.2.1]; rfl
        | true =>
          obtain ⟨p1, post, h1, _, hs, _, _, _, hu, _, _, _, _, ho⟩ := udp_on_io_emit_spec
            { p with udp_packet := p.udp_packet.store 8 (d.take 65535),
                     self := { p.self with connected := 1 } }
            (d.take 65535).length wr
            ([Effect.recvfrom p.self.sock 65535] ++ [Effect.connect p.self.sock src]) hlive
          have hstep : udp_on_io p evmask ⟨RecvRes.datagram src d, true, wr⟩
              = udp_on_io_emit { p with udp_packet := p.udp_packet.store 8 (d.take 65535),
                                        self := { p.self with connected := 1 } }
                  (d.take 65535).length wr
                  ([Effect.recvfrom p.self.sock 65535] ++ [Effect.connect p.self.sock src]) := by
            simp only [udp_on_io, hlive, Bool.false_eq_true, if_false, hev, h0, if_true]
          rw [hstep]
          refine ⟨p1, _, h1, ?_, ?_, fun h => absurd h0 h, ?_, ho⟩
          · rw [hu]; exact store_reserved _ _ _ 6 (by omega) (by omega)
          · rw [hu]; exact store_reserved _ _ _ 7 (by omega) (by omega)
          · simp only [sends_append, hs]; rfl
      · obtain ⟨p1, post, h1, _, hs, hcn, _, _, hu, _, _, hcc, _, ho⟩ := udp_on_io_emit_spec
          { p with udp_packet := p.udp_packet.store 8 (d.take 65535) }
          (d.take 65535).length wr [Effect.recvfrom p.self.sock 65535] hlive
        have hstep : udp_on_io p evmask ⟨RecvRes.datagram src d, conn, wr⟩
            = udp_on_io_emit { p with udp_packet := p.udp_packet.store 8 (d.take 65535) }
                (d.take 65535).length wr [Effect.recvfrom p.self.sock 65535] := by
          simp only [udp_on_io, hlive, Bool.false_eq_true, if_false, hev, h0]
        rw [hstep]
        refine ⟨p1, _, h1, ?_, ?_, fun _ => ⟨hcc, ?_⟩, ?_, ho⟩
        · rw [hu]; exact store_reserved _ _ _ 6 (by omega) (by omega)
        · rw [hu]; exact store_reserved _ _ _ 7 (by omega) (by omega)
        · simp only [connects_append, hcn]; rfl
        · simp only [sends_append, hs]; rfl

/-! ## Lemmas on `stream_on_io` -/

theorem keeps_on_error (p q : Proc) (pre : List Effect) (hq : q.freed = false)
    (hu : q.udp_packet = p.udp_packet) (hs : q.self = p.self) (hc : connects pre = [])
    (hw : writes pre = []) : StreamKeeps p (on_error q pre) := by
  have hst := stop_effects_quiet q.self
  rw [on_error_eq q pre hq]
  refine ⟨_, _, rfl, hu, ?_, ?_, ?_, ?_⟩
  · simp [stopped, hs]
  · rw [connects_append, hc, hst.2.2.2]; rfl
  · rw [writes_append, hw, hst.1]; rfl
  · simp [stopped, hs]

theorem stream_on_io_keeps (p : Proc) (evmask : Nat) (env : StreamEnv)
    (hlive : p.freed = false) : StreamKeeps p (stream_on_io p evmask env) := by
  obtain ⟨r1, r2, snd⟩ := env
  by_cases hev : evmask &&& EV_READ = 0
  · exact ⟨p, [], by simp [stream_on_io, hlive, hev], rfl, rfl, rfl, rfl, rfl⟩
  · simp only [stream_on_io, hlive, hev, Bool.false_eq_true, if_false]
    cases r1 with
    | error => exact keeps_on_error p p _ hlive rfl rfl rfl rfl
    | avail k1 =>
      simp only [sys_read]
      split_ifs with ha hb hc
      · exact keeps_on_error p _ _ rfl rfl rfl rfl rfl
      · exact keeps_on_error p _ _ rfl rfl rfl rfl rfl
      · exact keeps_on_error p _ _ rfl rfl rfl rfl rfl
      · cases r2 with
        | error => exact keeps_on_error p _ _ rfl rfl rfl rfl rfl
        | avail k2 =>
          cases snd with
          | sent => exact ⟨_, _, rfl, rfl, rfl, rfl, rfl, rfl⟩
          | error e =>
            simp only []
            split_ifs with hd
            · exact keeps_on_error p _ _ rfl rfl rfl rfl rfl
            · exact ⟨_, _, rfl, rfl, rfl, rfl, rfl, rfl⟩

theorem sys_read_full (a b : List Nat) (k : Nat) (hk : a.length ≤ k) :
    sys_read (a ++ b) a.length (ReadRes.avail k) = some (a, b) := by
  simp [sys_read, Nat.min_eq_left hk]

theorem header_fields (P : List Nat) (r6 r7 : Nat) (hP : P.length ≤ 65535) :
    ntohl (([0xDE, 0xAD, 0xBE, 0xAF, P.length / 256 % 256, P.length % 256, r6, r7] :
        List Nat).take 4) = 0xdeadbeaf
      ∧ ntohs ((([0xDE, 0xAD, 0xBE, 0xAF, P.length / 256 % 256, P.length % 256, r6, r7] :
        List Nat).drop 4).take 2) = P.length := by
  constructor
  · simp [ntohl]
  · simp only [ntohs, List.drop, List.take, List.getD_cons_zero, List.getD_cons_succ]
    omega

/-- One activation of `stream_on_io` on a stream that starts with a frame of
`P` (whatever its two reserved bytes), when both reads return what they were
asked for. -/
theorem stream_on_io_frame_any (p : Proc) (evmask : Nat) (P rest : List Nat) (r6 r7 k1 k2 : Nat)
    (snd : SendRes) (hlive : p.freed = false) (hev : evmask &&& EV_READ ≠ 0)
    (hP : P.length ≤ 65535)
    (hin : p.input
      = [0xDE, 0xAD, 0xBE, 0xAF, P.length / 256 % 256, P.length % 256, r6, r7] ++ P ++ rest)
    (hk1 : 8 ≤ k1) (hk2 : P.length ≤ k2) :
    ∃ p1 eff, stream_on_io p evmask ⟨ReadRes.avail k1, ReadRes.avail k2, snd⟩ = some (p1, eff)
      ∧ sends eff = [(p.self.sock, P)]
      ∧ reads eff = [(p.self.streamin, 8), (p.self.streamin, P.length)]
      ∧ p1.input = rest
      ∧ (p1.freed = true ↔ ∃ e, snd = SendRes.error e ∧ e ≠ Errno.EAGAIN)
      ∧ (p1.freed = false → p1.self = p.self) := by
  have hq := stop_effects_quiet p.self
  have h1 : sys_read p.input 8 (ReadRes.avail k1)
      = some ([0xDE, 0xAD, 0xBE, 0xAF, P.length / 256 % 256, P.length % 256, r6, r7],
          P ++ rest) := by
    rw [hin, List.append_assoc]
    exact sys_read_full [0xDE, 0xAD, 0xBE, 0xAF, P.length / 256 % 256, P.length % 256, r6, r7]
      (P ++ rest) k1 hk1
  obtain ⟨hm, hl⟩ := header_fields P r6 r7 hP
  simp only [stream_on_io, hlive, hev, Bool.false_eq_true, if_false, h1, hm, hl,
    List.length_cons, List.length_nil, sys_read_full P rest k2 hk2, Mem.load_store_same]
  rw [if_neg (by omega), if_neg (by omega), if_neg (by omega)]
  cases snd with
  | sent =>
    refine ⟨_, _, rfl, rfl, rfl, rfl, ?_, fun _ => rfl⟩
    simp
  | error e =>
    by_cases he : e = Errno.EAGAIN
    · simp only [he, ne_eq, not_true_eq_false, if_false]
      refine ⟨_, _, rfl, rfl, rfl, rfl, ?_, fun _ => rfl⟩
      simp
    · simp only [ne_eq, he, not_false_eq_true, if_true]
      rw [on_error_eq _ _ rfl]
      refine ⟨_, _, rfl, ?_, ?_, rfl, ?_, ?_⟩
      · rw [sends_append, hq.2.1]; rfl
      · rw [reads_append, hq.2.2.1]; rfl
      · simp [he]
      · intro h; simp at h

theorem stream_on_io_frame (p : Proc) (evmask : Nat) (P rest : List Nat) (k1 k2 : Nat)
    (snd : SendRes) (hlive : p.freed = false) (hev : evmask &&& EV_READ ≠ 0)
    (hP : P.length ≤ 65535) (hin : p.input = spec_frame P ++ rest) (hk1 : 8 ≤ k1)
    (hk2 : P.length ≤ k2) :
    ∃ p1 eff, stream_on_io p evmask ⟨ReadRes.avail k1, ReadRes.avail k2, snd⟩ = some (p1, eff)
      ∧ sends eff = [(p.self.sock, P)]
      ∧ reads eff = [(p.self.streamin, 8), (p.self.streamin, P.length)]
      ∧ p1.input = rest
      ∧ (p1.freed = true ↔ ∃ e, snd = SendRes.error e ∧ e ≠ Errno.EAGAIN)
      ∧ (p1.freed = false → p1.self = p.self) :=
  stream_on_io_frame_any p evmask P rest 0 0 k1 k2 snd hlive hev hP hin hk1 hk2

/-! ## Lemmas on the event loop -/

theorem dispatch_keeps (p : Proc) (a : Activation) (hlive : p.freed = false) :
    Keeps p (dispatch p a) := by
  cases a with
  | udp evmask env =>
    obtain ⟨p1, eff, h, h6, h7, hc, _, ho⟩ := udp_on_io_keeps p evmask env hlive
    exact ⟨p1, eff, h, h6, h7, hc, ho⟩
  | stream evmask env =>
    obtain ⟨p1, eff, h, hu, hc, hcn, _, ho⟩ := stream_on_io_keeps p evmask env hlive
    exact ⟨p1, eff, h, by rw [hu], by rw [hu], fun _ => ⟨hc, hcn⟩, ho⟩
  | sigint => exact ⟨p, _, rfl, rfl, rfl, fun _ => ⟨rfl, rfl⟩, rfl⟩
  | sigterm => exact ⟨p, _, rfl, rfl, rfl, fun _ => ⟨rfl, rfl⟩, rfl⟩

theorem run_keeps (acts : List Activation) (p : Proc) : Keeps p (run p acts) := by
  induction acts generalizing p with
  | nil => exact ⟨p, [], rfl, rfl, rfl, fun _ => ⟨rfl, rfl⟩, rfl⟩
  | cons a rest ih =>
    by_cases hf : p.freed = true
    · exact ⟨p, [], by simp [run, hf], rfl, rfl, fun _ => ⟨rfl, rfl⟩, rfl⟩
    · have hlive : p.freed = false := by simpa using hf
      obtain ⟨p1, e1, h1, h6, h7, hc, ho⟩ := dispatch_keeps p a hlive
      obtain ⟨p2, e2, h2, g6, g7, gc, go⟩ := ih p1
      refine ⟨p2, e1 ++ e2, by simp [run, hlive, h1, h2], by rw [g6, h6], by rw [g7, h7], ?_,
        by rw [go, ho]⟩
      intro hne
      obtain ⟨hc1, hc2⟩ := hc hne
      obtain ⟨gc1, gc2⟩ := gc (by rw [hc1]; exact hne)
      exact ⟨by rw [gc1, hc1], by rw [connects_append, hc2, gc2]; rfl⟩

theorem teardown_calls_append (a b : List Effect) :
    teardown_calls (a ++ b) = teardown_calls a ++ teardown_calls b := by
  simp [teardown_calls]

theorem teardown_calls_stop (s : udp2stream) :
    teardown_calls (stop_effects s) = stop_effects s := by
  by_cases h1 : 0 ≤ s.sock <;> by_cases h2 : 0 ≤ s.streamin <;>
    simp [teardown_calls, stop_effects, is_teardown, h1, h2]

theorem stop_effects_congr (s t : udp2stream) (hs : s.sock = t.sock)
    (hi : s.streamin = t.streamin) : stop_effects s = stop_effects t := by
  simp [stop_effects, hs, hi]

theorem tears_on_error (p q : Proc) (pre : List Effect) (hq : q.freed = false)
    (hs : q.self.sock = p.self.sock) (hi : q.self.streamin = p.self.streamin)
    (hpre : teardown_calls pre = []) : TearsOnce p (on_error q pre) := by
  rw [on_error_eq q pre hq]
  refine ⟨_, _, rfl, Or.inr ⟨rfl, ?_⟩⟩
  rw [teardown_calls_append, hpre, teardown_calls_stop, stop_effects_congr _ _ hs hi]
  rfl

theorem tears_some (p q : Proc) (eff : List Effect) (hq : q.freed = false)
    (hs : q.self.sock = p.self.sock) (hi : q.self.streamin = p.self.streamin)
    (heff : teardown_calls eff = []) : TearsOnce p (some (q, eff)) :=
  ⟨q, eff, rfl, Or.inl ⟨hq, heff, hs, hi⟩⟩

theorem udp_on_io_emit_tears (p q : Proc) (size : Nat) (wr : Bool) (pre : List Effect)
    (hq : q.freed = false) (hs : q.self.sock = p.self.sock)
    (hi : q.self.streamin = p.self.streamin) (hpre : teardown_calls pre = []) :
    TearsOnce p (udp_on_io_emit q size wr pre) := by
  cases wr with
  | true =>
    simp only [udp_on_io_emit, if_true]
    exact tears_some p _ _ hq hs hi (by rw [teardown_calls_append, hpre]; rfl)
  | false =>
    simp only [udp_on_io_emit, Bool.false_eq_true, if_false]
    exact tears_on_error p _ _ hq hs hi
      (by rw [teardown_calls_append, teardown_calls_append, hpre]; rfl)

theorem udp_on_io_tears (p : Proc) (evmask : Nat) (env : UdpEnv) (hlive : p.freed = false) :
    TearsOnce p (udp_on_io p evmask env) := by
  obtain ⟨rc, conn, wr⟩ := env
  by_cases hev : evmask &&& EV_READ = 0
  · simp only [udp_on_io, hev, if_true]
    exact tears_some p p [] hlive rfl rfl rfl
  · simp only [udp_on_io, hlive, hev, Bool.false_eq_true, if_false]
    cases rc with
    | error => exact tears_on_error p p _ hlive rfl rfl rfl
    | datagram src d =>
      simp only []
      by_cases h0 : p.self.connected = 0
      · rw [if_pos h0]
        cases conn with
        | false =>
          simp only [Bool.false_eq_true, if_false]
          exact tears_on_error p _ _ rfl rfl rfl rfl
        | true =>
          simp only [if_true]
          exact udp_on_io_emit_tears p _ _ _ _ rfl rfl rfl rfl
      · rw [if_neg h0]
        exact udp_on_io_emit_tears p _ _ _ _ rfl rfl rfl rfl

theorem stream_on_io_tears (p : Proc) (evmask : Nat) (env : StreamEnv)
    (hlive : p.freed = false) : TearsOnce p (stream_on_io p evmask env) := by
  obtain ⟨r1, r2, snd⟩ := env
  by_cases hev : evmask &&& EV_READ = 0
  · simp only [stream_on_io, hev, if_true]
    exact tears_some p p [] hlive rfl rfl rfl
  · simp only [stream_on_io, hlive, hev, Bool.false_eq_true, if_false]
    cases r1 with
    | error => exact tears_on_error p p _ hlive rfl rfl rfl
    | avail k1 =>
      simp only [sys_read]
      split_ifs with ha hb hc
      · exact tears_on_error p _ _ rfl rfl rfl rfl
      · exact tears_on_error p _ _ rfl rfl rfl rfl
      · exact tears_on_error p _ _ rfl rfl rfl rfl
      · cases r2 with
        | error => exact tears_on_error p _ _ rfl rfl rfl rfl
        | avail k2 =>
          cases snd with
          | sent => exact tears_some p _ _ rfl rfl rfl rfl
          | error e =>
            simp only []
            split_ifs with hd
            · exact tears_on_error p _ _ rfl rfl rfl rfl
            · exact tears_some p _ _ rfl rfl rfl rfl

theorem dispatch_tears (p : Proc) (a : Activation) (hlive : p.freed = false) :
    TearsOnce p (dispatch p a) := by
  cases a with
  | udp evmask env => exact udp_on_io_tears p evmask env hlive
  | stream evmask env => exact stream_on_io_tears p evmask env hlive
  | sigint => exact tears_some p p _ hlive rfl rfl rfl
  | sigterm => exact tears_some p p _ hlive rfl rfl rfl

theorem run_freed (p : Proc) (acts : List Activation) (h : p.freed = true) :
    run p acts = some (p, []) := by
  cases acts with
  | nil => rfl
  | cons a rest => simp [run, h]

theorem run_tears (acts : List Activation) (p : Proc) (hlive : p.freed = false) :
    TearsOnce p (run p acts) := by
  induction acts generalizing p with
  | nil => exact tears_some p p [] hlive rfl rfl rfl
  | cons a rest ih =>
    obtain ⟨p1, e1, h1, hcase⟩ := dispatch_tears p a hlive
    rcases hcase with ⟨hf, ht, hs, hi⟩ | ⟨hf, ht⟩
    · obtain ⟨p2, e2, h2, hcase2⟩ := ih p1 hf
      refine ⟨p2, e1 ++ e2, by simp [run, hlive, h1, h2], ?_⟩
      rcases hcase2 with ⟨gf, gt, gs, gi⟩ | ⟨gf, gt⟩
      · exact Or.inl ⟨gf, by rw [teardown_calls_append, ht, gt]; rfl, by rw [gs, hs],
          by rw [gi, hi]⟩
      · exact Or.inr ⟨gf, by
          rw [teardown_calls_append, ht, gt, stop_effects_congr _ _ hs hi]; rfl⟩
    · refine ⟨p1, e1 ++ [], by simp [run, hlive, h1, run_freed p1 rest hf], ?_⟩
      exact Or.inr ⟨hf, by rw [List.append_nil]; exact ht⟩

/-! ## The claims -/

/-- The state `sender0` is what `udp2stream_start` builds for a sender on socket 3. -/
theorem sender0_started :
    udp2stream_start true MODE.SENDER 3 0 1 []
      = some (sender0, [Effect.event_add_sock, Effect.event_add_stream]) := rfl

/-- The state `receiver0 input` is what `udp2stream_start` builds for a receiver on
socket 3 with `input` pending on standard input. -/
theorem receiver0_started (input : List Nat) :
    udp2stream_start true MODE.RECEIVER 3 0 1 input
      = some (receiver0 input, [Effect.event_add_sock, Effect.event_add_stream]) := rfl

/-- The state `sender1` is `sender0` after one activation of `udp_on_io` on the datagram
`[1, 2]`. -/
theorem sender1_reached :
    run sender0 [Activation.udp EV_READ ⟨RecvRes.datagram 7 [1, 2], false, true⟩]
      = some (sender1,
          [Effect.recvfrom 3 65535, Effect.write 1 [0xDE, 0xAD, 0xBE, 0xAF, 0, 2, 0, 0, 1, 2]]) :=
  rfl

/-- C2, frame layout: in a session started by `udp2stream_start`, after any
sequence of activations that left it alive, an activation of `udp_on_io` that
receives a payload `P` of at most 65535 bytes and reaches the `write` (the
session is connected or `connect` succeeds) hands to the one `write` on the
stream output exactly `8 + |P|` bytes: `DE AD BE AF`, `|P|` as 16 bits most
significant byte first, two zero bytes, then `P`. -/
theorem frame_layout (mode : MODE) (sock streamin streamout : Int) (input : List Nat)
    (p0 : Proc) (e0 : List Effect) (acts : List Activation) (p : Proc) (tr : List Effect)
    (evmask src : Nat) (P : List Nat) (conn wr : Bool)
    (hstart : udp2stream_start true mode sock streamin streamout input = some (p0, e0))
    (hrun : run p0 acts = some (p, tr))
    (hlive : p.freed = false)
    (hev : evmask &&& EV_READ ≠ 0)
    (hP : P.length ≤ 65535)
    (hc : p.self.connected ≠ 0 ∨ conn = true) :
    ∃ p1 eff, udp_on_io p evmask ⟨RecvRes.datagram src P, conn, wr⟩ = some (p1, eff)
      ∧ writes eff = [(streamout, spec_frame P)]
      ∧ (spec_frame P).length = 8 + P.length
      ∧ spec_frame P
          = [0xDE, 0xAD, 0xBE, 0xAF, P.length / 256 % 256, P.length % 256, 0, 0] ++ P := by
  have hp0 : p0.udp_packet 6 = 0 ∧ p0.udp_packet 7 = 0 ∧ p0.self.streamout = streamout := by
    simp only [udp2stream_start, if_true, Option.some.injEq, Prod.mk.injEq] at hstart
    rw [← hstart.1]
    exact ⟨rfl, rfl, rfl⟩
  obtain ⟨q, e, hq, h6, h7, _, ho⟩ := run_keeps acts p0
  rw [hrun] at hq
  simp only [Option.some.injEq, Prod.mk.injEq] at hq
  obtain ⟨rfl, rfl⟩ := hq
  obtain ⟨p1, eff, h1, hw, _⟩ := udp_on_io_datagram p evmask src P conn wr hlive hev hc
  have htake : P.take 65535 = P := List.take_of_length_le hP
  refine ⟨p1, eff, h1, ?_, ?_, rfl⟩
  · rw [hw, htake, h6, h7, hp0.1, hp0.2.1, ho, hp0.2.2, Nat.mod_eq_of_lt (show P.length < 65536 by omega)]
    rfl
  · simp [spec_frame]; omega

/-- Witness of `frame_layout`: the second datagram of a sender session, `hello`. -/
theorem frame_layout_witness :
    (udp_on_io sender1 EV_READ ⟨RecvRes.datagram 7 [0x68, 0x65, 0x6C, 0x6C, 0x6F], false, true⟩).map
        (fun r => writes r.2)
      = some [(1, [0xDE, 0xAD, 0xBE, 0xAF, 0x00, 0x05, 0x00, 0x00, 0x68, 0x65, 0x6C, 0x6C, 0x6F])] := by
  obtain ⟨p1, eff, h, hw, _, _⟩ := frame_layout MODE.SENDER 3 0 1 [] sender0
    [Effect.event_add_sock, Effect.event_add_stream]
    [Activation.udp EV_READ ⟨RecvRes.datagram 7 [1, 2], false, true⟩] sender1
    [Effect.recvfrom 3 65535, Effect.write 1 [0xDE, 0xAD, 0xBE, 0xAF, 0, 2, 0, 0, 1, 2]]
    EV_READ 7 [0x68, 0x65, 0x6C, 0x6C, 0x6F] false true rfl rfl rfl (by decide)
    (by decide) (Or.inl (by decide))
  rw [h, Option.map_some', hw]
  rfl

/-- C1, round trip: for every payload `P` of at most 65535 bytes (the empty one
included), the bytes an activation of `udp_on_io` hands to `write` for the
received datagram `P`, taken as the stream input of an activation of
`stream_on_io` whose two reads return the header and the payload in full, make
that activation call `send` exactly once, with payload `P`, and use up the input. -/
theorem round_trip (P : List Nat) (ps pr : Proc) (evs evr src k1 k2 : Nat) (conn wr : Bool)
    (snd : SendRes)
    (hP : P.length ≤ 65535) (hs : ps.freed = false) (hr : pr.freed = false)
    (hevs : evs &&& EV_READ ≠ 0) (hevr : evr &&& EV_READ ≠ 0)
    (hc : ps.self.connected ≠ 0 ∨ conn = true) (hk1 : 8 ≤ k1) (hk2 : P.length ≤ k2) :
    ∃ ps1 effs bytes, udp_on_io ps evs ⟨RecvRes.datagram src P, conn, wr⟩ = some (ps1, effs)
      ∧ writes effs = [(ps.self.streamout, bytes)]
      ∧ ∃ pr1 effr,
          stream_on_io { pr with input := bytes } evr ⟨ReadRes.avail k1, ReadRes.avail k2, snd⟩
            = some (pr1, effr)
          ∧ sends effr = [(pr.self.sock, P)] ∧ pr1.input = [] := by
  obtain ⟨ps1, effs, h1, hw, _⟩ := udp_on_io_datagram ps evs src P conn wr hs hevs hc
  have htake : P.take 65535 = P := List.take_of_length_le hP
  rw [htake, Nat.mod_eq_of_lt (show P.length < 65536 by omega)] at hw
  obtain ⟨pr1, effr, h2, hsnd, _, hin, _⟩ := stream_on_io_frame_any
    { pr with input := [0xDE, 0xAD, 0xBE, 0xAF, P.length / 256 % 256, P.length % 256,
        ps.udp_packet 6, ps.udp_packet 7] ++ P }
    evr P [] (ps.udp_packet 6) (ps.udp_packet 7) k1 k2 snd hr hevr hP (by simp) hk1 hk2
  exact ⟨ps1, effs, _, h1, hw, pr1, effr, h2, hsnd, hin⟩

/-- Witness of `round_trip`: the empty payload, from a fresh sender to a fresh receiver. -/
theorem round_trip_witness :
    ∃ ps1 effs bytes, udp_on_io sender0 EV_READ ⟨RecvRes.datagram 7 [], false, true⟩
        = some (ps1, effs)
      ∧ writes effs = [(1, bytes)]
      ∧ ∃ pr1 effr,
          stream_on_io { receiver0 [] with input := bytes } EV_READ
              ⟨ReadRes.avail 8, ReadRes.avail 0, SendRes.sent⟩
            = some (pr1, effr)
          ∧ sends effr = [(3, [])] ∧ pr1.input = [] :=
  round_trip [] sender0 (receiver0 []) EV_READ EV_READ 7 8 0 false true SendRes.sent
    (by decide) rfl rfl (by decide) (by decide) (Or.inl (by decide)) (by decide) (by decide)

/-- C9, peer latching is one-shot: `udp2stream_start` gives `connected = 1` in
sender mode and `connected = 0` in receiver mode; an activation of `udp_on_io`
with `connected = 0` that receives a datagram and whose `connect` succeeds sets
`connected = 1`; and from a state with `connected = 1` no activation
(`udp_on_io`, `stream_on_io`, `on_sigint`, `on_sigterm`), and no sequence of
them, changes `connected` or calls `connect`. -/
theorem latch_one_shot :
    (∀ (sock streamin streamout : Int) (input : List Nat),
        ∃ p e, udp2stream_start true MODE.SENDER sock streamin streamout input = some (p, e)
          ∧ p.self.connected = 1)
    ∧ (∀ (sock streamin streamout : Int) (input : List Nat),
        ∃ p e, udp2stream_start true MODE.RECEIVER sock streamin streamout input = some (p, e)
          ∧ p.self.connected = 0)
    ∧ (∀ (p : Proc) (evmask src : Nat) (d : List Nat) (wr : Bool),
        p.freed = false → evmask &&& EV_READ ≠ 0 → p.self.connected = 0 →
        ∃ p1 eff, udp_on_io p evmask ⟨RecvRes.datagram src d, true, wr⟩ = some (p1, eff)
          ∧ p1.self.connected = 1 ∧ connects eff = [(p.self.sock, src)])
    ∧ (∀ (p : Proc) (a : Activation), p.freed = false → p.self.connected = 1 →
        ∃ p1 eff, dispatch p a = some (p1, eff) ∧ p1.self.connected = 1 ∧ connects eff = [])
    ∧ (∀ (p : Proc) (acts : List Activation), p.self.connected = 1 →
        ∃ p1 eff, run p acts = some (p1, eff) ∧ p1.self.connected = 1 ∧ connects eff = []) := by
  refine ⟨?_, ?_, ?_, ?_, ?_⟩
  · intro sock streamin streamout input
    exact ⟨_, _, rfl, rfl⟩
  · intro sock streamin streamout input
    exact ⟨_, _, rfl, rfl⟩
  · intro p evmask src d wr hlive hev h0
    obtain ⟨p1, eff, h1, _, _, hcn, hcc, _⟩ :=
      udp_on_io_datagram p evmask src d true wr hlive hev (Or.inr rfl)
    exact ⟨p1, eff, h1, by rw [hcc, if_pos h0], by rw [hcn, if_pos h0]⟩
  · intro p a hlive h1
    obtain ⟨p1, eff, h, _, _, hc, _⟩ := dispatch_keeps p a hlive
    obtain ⟨hc1, hc2⟩ := hc (by rw [h1]; decide)
    exact ⟨p1, eff, h, by rw [hc1, h1], hc2⟩
  · intro p acts h1
    obtain ⟨p1, eff, h, _, _, hc, _⟩ := run_keeps acts p
    obtain ⟨hc1, hc2⟩ := hc (by rw [h1]; decide)
    exact ⟨p1, eff, h, by rw [hc1, h1], hc2⟩

/-- Witness of `latch_one_shot`: a fresh receiver latches on its first datagram. -/
theorem latch_one_shot_witness :
    ∃ p1 eff, udp_on_io (receiver0 []) EV_READ ⟨RecvRes.datagram 7 [1, 2], true, true⟩
        = some (p1, eff)
      ∧ p1.self.connected = 1 ∧ connects eff = [(3, 7)] :=
  latch_one_shot.2.2.1 (receiver0 []) EV_READ 7 [1, 2] true rfl (by decide) rfl

/-- C3, counterexample: the stream input of a fresh receiver is the frames of
`abc` and `hi`, every read returns the bytes asked for, and the first `send`
fails with `EDESTADDRREQ`: the first activation tears the session down, one
`send` was called, and the frame of `hi` is left unread. -/
theorem framing_totality_counterexample :
    (run (receiver0 (encode_all [[0x61, 0x62, 0x63], [0x68, 0x69]]))
        [Activation.stream EV_READ
           ⟨ReadRes.avail 8, ReadRes.avail 3, SendRes.error Errno.EDESTADDRREQ⟩,
         Activation.stream EV_READ ⟨ReadRes.avail 8, ReadRes.avail 2, SendRes.sent⟩]).map
        (fun r => (sends r.2, r.1.input, r.1.freed))
      = some ([(3, [0x61, 0x62, 0x63])],
          [0xDE, 0xAD, 0xBE, 0xAF, 0, 2, 0, 0, 0x68, 0x69], true) := by
  decide

/-- C3 as amended, framing totality: when the stream input is the concatenation
of the frames of `P1..Pn` (each at most 65535 bytes), every read returns the
bytes asked for and no `send` fails with an `errno` other than `EAGAIN`, `n`
successive activations of `stream_on_io` use up the whole input, call `send`
exactly `n` times with `P1..Pn` in that order, and leave the session alive. -/
theorem framing_totality (Ps : List (List Nat)) (acts : List Activation) (p : Proc)
    (hlive : p.freed = false) (hP : ∀ P ∈ Ps, P.length ≤ 65535)
    (hin : p.input = encode_all Ps) (hacts : full_activations Ps acts = true) :
    ∃ p1 eff, run p acts = some (p1, eff) ∧ acts.length = Ps.length ∧ p1.input = []
      ∧ sends eff = Ps.map (fun P => (p.self.sock, P)) ∧ p1.freed = false := by
  induction Ps generalizing acts p with
  | nil =>
    cases acts with
    | nil => exact ⟨p, [], rfl, rfl, hin, rfl, hlive⟩
    | cons a rest => simp [full_activations] at hacts
  | cons P Ps ih =>
    cases acts with
    | nil => simp [full_activations] at hacts
    | cons a rest =>
      cases a with
      | stream evmask env =>
        obtain ⟨r1, r2, snd⟩ := env
        simp only [full_activations, Bool.and_eq_true, decide_eq_true_eq,
          Bool.not_eq_true'] at hacts
        obtain ⟨⟨⟨hev, hrd⟩, hsnd⟩, hrest⟩ := hacts
        cases r1 with
        | error => simp [reads_full] at hrd
        | avail k1 =>
          cases r2 with
          | error => simp [reads_full] at hrd
          | avail k2 =>
            simp only [reads_full, Bool.and_eq_true, decide_eq_true_eq] at hrd
            obtain ⟨p1, e1, h1, hs1, _, hin1, hf1, hself1⟩ := stream_on_io_frame p evmask P
              (encode_all Ps) k1 k2 snd hlive hev (hP P (List.mem_cons_self _ _)) hin hrd.1 hrd.2
            have hlive1 : p1.freed = false := by
              cases hp : p1.freed with
              | false => rfl
              | true =>
                obtain ⟨e, he, hne⟩ := hf1.mp hp
                rw [he] at hsnd
                simp [send_fatal, hne] at hsnd
            obtain ⟨p2, e2, h2, hlen, hin2, hs2, hf2⟩ := ih rest p1 hlive1
              (fun Q hQ => hP Q (List.mem_cons_of_mem _ hQ)) hin1 hrest
            refine ⟨p2, e1 ++ e2, ?_, by simp [hlen], hin2, ?_, hf2⟩
            · simp [run, hlive, dispatch, h1, h2]
            · rw [sends_append, hs1, hs2, hself1 hlive1]
              rfl
      | udp evmask env => simp [full_activations] at hacts
      | sigint => simp [full_activations] at hacts
      | sigterm => simp [full_activations] at hacts

/-- Witness of `framing_totality`: the frames of `abc`, of the empty payload and of `hi`,
every `send` accepted. -/
theorem framing_totality_witness :
    ∃ p1 eff, run (receiver0 (encode_all [[0x61, 0x62, 0x63], [], [0x68, 0x69]]))
        [Activation.stream EV_READ ⟨ReadRes.avail 8, ReadRes.avail 3, SendRes.sent⟩,
         Activation.stream EV_READ ⟨ReadRes.avail 4096, ReadRes.avail 4096, SendRes.sent⟩,
         Activation.stream EV_READ ⟨ReadRes.avail 8, ReadRes.avail 2, SendRes.sent⟩]
        = some (p1, eff)
      ∧ [Activation.stream EV_READ ⟨ReadRes.avail 8, ReadRes.avail 3, SendRes.sent⟩,
         Activation.stream EV_READ ⟨ReadRes.avail 4096, ReadRes.avail 4096, SendRes.sent⟩,
         Activation.stream EV_READ ⟨ReadRes.avail 8, ReadRes.avail 2, SendRes.sent⟩].length
          = [[0x61, 0x62, 0x63], [], [0x68, 0x69]].length
      ∧ p1.input = []
      ∧ sends eff = [[0x61, 0x62, 0x63], [], [0x68, 0x69]].map
          (fun P => ((receiver0 (encode_all [[0x61, 0x62, 0x63], [], [0x68, 0x69]])).self.sock, P))
      ∧ p1.freed = false :=
  framing_totality [[0x61, 0x62, 0x63], [], [0x68, 0x69]] _ _ rfl (by decide) rfl (by decide)

/-- C4, header failures: when the header read of an activation of
`stream_on_io` returns fewer than 8 bytes (none at end of stream, or 1 to 7),
or 8 bytes whose first 32 bits in network order are not `0xDEADBEAF`, the
activation makes that one `read` and no other, calls `send` not at all, and
ends in `udp2stream_stop`, which frees the session. -/
theorem header_failure (p : Proc) (evmask : Nat) (env : StreamEnv) (k : Nat)
    (hlive : p.freed = false) (hev : evmask &&& EV_READ ≠ 0)
    (hrd : env.rd_hdr = ReadRes.avail k)
    (hbad : (p.input.take (min 8 k)).length < 8
      ∨ ntohl ((p.input.take (min 8 k)).take 4) ≠ 0xdeadbeaf) :
    ∃ p1 pre, stream_on_io p evmask env = some (p1, pre ++ stop_effects p.self)
      ∧ udp2stream_stop { p with input := p.input.drop (min 8 k) }
          = some (p1, stop_effects p.self)
      ∧ sends (pre ++ stop_effects p.self) = []
      ∧ reads (pre ++ stop_effects p.self) = [(p.self.streamin, 8)]
      ∧ p1.freed = true := by
  obtain ⟨r1, r2, snd⟩ := env
  obtain ⟨self, freed, up, sd, input⟩ := p
  simp only at hrd hlive
  subst hrd
  subst hlive
  have hq := stop_effects_quiet self
  simp only [stream_on_io, hev, Bool.false_eq_true, if_false, sys_read]
  have hstop := udp2stream_stop_eq ⟨self, false, up, sd, input.drop (min 8 k)⟩ rfl
  by_cases h0 : (input.take (min 8 k)).length = 0
  · rw [if_pos h0, on_error_eq _ _ rfl]
    refine ⟨_, _, rfl, hstop, ?_, ?_, rfl⟩
    · rw [sends_append, hq.2.1]; rfl
    · rw [reads_append, hq.2.2.1]; rfl
  · rw [if_neg h0]
    by_cases h8 : (input.take (min 8 k)).length ≠ 8
    · rw [if_pos h8, on_error_eq _ _ rfl]
      refine ⟨_, _, rfl, hstop, ?_, ?_, rfl⟩
      · rw [sends_append, hq.2.1]; rfl
      · rw [reads_append, hq.2.2.1]; rfl
    · rw [if_neg h8]
      have hm : ntohl ((input.take (min 8 k)).take 4) ≠ 0xdeadbeaf := by
        rcases hbad with h | h
        · exfalso; apply h8; intro h9; simp only at h; omega
        · exact h
      rw [if_pos hm, on_error_eq _ _ rfl]
      refine ⟨_, _, rfl, hstop, ?_, ?_, rfl⟩
      · rw [sends_append, hq.2.1]; rfl
      · rw [reads_append, hq.2.2.1]; rfl

/-- Witness of `header_failure`: a frame whose magic is `0xCAFEBABE`. -/
theorem header_failure_witness :
    ∃ p1 pre, stream_on_io (receiver0 [0xCA, 0xFE, 0xBA, 0xBE, 0, 3, 0, 0, 0x61, 0x62, 0x63])
          EV_READ ⟨ReadRes.avail 8, ReadRes.avail 3, SendRes.sent⟩
        = some (p1, pre ++ stop_effects
            (receiver0 [0xCA, 0xFE, 0xBA, 0xBE, 0, 3, 0, 0, 0x61, 0x62, 0x63]).self)
      ∧ udp2stream_stop
          { receiver0 [0xCA, 0xFE, 0xBA, 0xBE, 0, 3, 0, 0, 0x61, 0x62, 0x63] with
            input := (receiver0 [0xCA, 0xFE, 0xBA, 0xBE, 0, 3, 0, 0, 0x61, 0x62, 0x63]).input.drop
              (min 8 8) }
          = some (p1, stop_effects
              (receiver0 [0xCA, 0xFE, 0xBA, 0xBE, 0, 3, 0, 0, 0x61, 0x62, 0x63]).self)
      ∧ sends (pre ++ stop_effects
          (receiver0 [0xCA, 0xFE, 0xBA, 0xBE, 0, 3, 0, 0, 0x61, 0x62, 0x63]).self) = []
      ∧ reads (pre ++ stop_effects
          (receiver0 [0xCA, 0xFE, 0xBA, 0xBE, 0, 3, 0, 0, 0x61, 0x62, 0x63]).self)
          = [((receiver0 [0xCA, 0xFE, 0xBA, 0xBE, 0, 3, 0, 0, 0x61, 0x62, 0x63]).self.streamin, 8)]
      ∧ p1.freed = true :=
  header_failure (receiver0 [0xCA, 0xFE, 0xBA, 0xBE, 0, 3, 0, 0, 0x61, 0x62, 0x63]) EV_READ
    ⟨ReadRes.avail 8, ReadRes.avail 3, SendRes.sent⟩ 8 rfl (by decide) rfl
    (Or.inr (by decide))

/-- C6, counterexample: a fresh receiver (`connected = 0`) reads the well-formed
frame of `abc`, `send` fails with `EDESTADDRREQ`, and the activation ends in
`udp2stream_stop`: the session is freed. -/
theorem unlatched_send_counterexample :
    (stream_on_io (receiver0 [0xDE, 0xAD, 0xBE, 0xAF, 0, 3, 0, 0, 0x61, 0x62, 0x63]) EV_READ
        ⟨ReadRes.avail 8, ReadRes.avail 3, SendRes.error Errno.EDESTADDRREQ⟩).map
        (fun r => (r.1.freed, r.2))
      = some (true, [Effect.read 0 8, Effect.read 0 3, Effect.send 3 [0x61, 0x62, 0x63],
          Effect.warn "%p: send", Effect.warn "send", Effect.event_del_sock, Effect.close 3,
          Effect.event_del_stream, Effect.signal_del_sigint, Effect.signal_del_sigterm,
          Effect.free]) := by
  decide

/-- C6 as amended: an activation of `stream_on_io` that reads a well-formed
frame calls `send` with its payload, and the session is torn down exactly when
`send` fails with an `errno` other than `EAGAIN`; a failure with
`EDESTADDRREQ` tears it down, whatever `connected` is. -/
theorem send_failure_policy (p : Proc) (evmask : Nat) (P rest : List Nat) (k1 k2 : Nat)
    (snd : SendRes) (hlive : p.freed = false) (hev : evmask &&& EV_READ ≠ 0)
    (hP : P.length ≤ 65535) (hin : p.input = spec_frame P ++ rest) (hk1 : 8 ≤ k1)
    (hk2 : P.length ≤ k2) :
    ∃ p1 eff, stream_on_io p evmask ⟨ReadRes.avail k1, ReadRes.avail k2, snd⟩ = some (p1, eff)
      ∧ sends eff = [(p.self.sock, P)]
      ∧ (p1.freed = true ↔ ∃ e, snd = SendRes.error e ∧ e ≠ Errno.EAGAIN)
      ∧ (p1.freed = false ↔ snd = SendRes.sent ∨ snd = SendRes.error Errno.EAGAIN)
      ∧ (snd = SendRes.error Errno.EDESTADDRREQ → p1.freed = true) := by
  obtain ⟨p1, eff, h1, hs, _, _, hf, _⟩ :=
    stream_on_io_frame p evmask P rest k1 k2 snd hlive hev hP hin hk1 hk2
  refine ⟨p1, eff, h1, hs, hf, ?_, ?_⟩
  · constructor
    · intro hfalse
      cases snd with
      | sent => exact Or.inl rfl
      | error e =>
        by_cases he : e = Errno.EAGAIN
        · exact Or.inr (by rw [he])
        · have := hf.mpr ⟨e, rfl, he⟩
          rw [hfalse] at this
          exact absurd this (by decide)
    · intro h
      cases hp : p1.freed with
      | false => rfl
      | true =>
        obtain ⟨e, he, hne⟩ := hf.mp hp
        rcases h with h | h
        · rw [h] at he; cases he
        · rw [h] at he
          injection he with he
          exact absurd he.symm hne
  · intro h
    exact hf.mpr ⟨Errno.EDESTADDRREQ, h, by decide⟩

/-- Witness of `send_failure_policy`: the frame of `abc` at a fresh receiver, `send` failing
with `EAGAIN`. -/
theorem send_failure_policy_witness :
    ∃ p1 eff, stream_on_io (receiver0 (spec_frame [0x61, 0x62, 0x63] ++ [])) EV_READ
        ⟨ReadRes.avail 8, ReadRes.avail 3, SendRes.error Errno.EAGAIN⟩ = some (p1, eff)
      ∧ sends eff = [((receiver0 (spec_frame [0x61, 0x62, 0x63] ++ [])).self.sock,
          [0x61, 0x62, 0x63])]
      ∧ (p1.freed = true
          ↔ ∃ e, SendRes.error Errno.EAGAIN = SendRes.error e ∧ e ≠ Errno.EAGAIN)
      ∧ (p1.freed = false ↔ SendRes.error Errno.EAGAIN = SendRes.sent
          ∨ SendRes.error Errno.EAGAIN = SendRes.error Errno.EAGAIN)
      ∧ (SendRes.error Errno.EAGAIN = SendRes.error Errno.EDESTADDRREQ → p1.freed = true) :=
  send_failure_policy (receiver0 (spec_frame [0x61, 0x62, 0x63] ++ [])) EV_READ
    [0x61, 0x62, 0x63] [] 8 3 (SendRes.error Errno.EAGAIN) rfl (by decide) (by decide) rfl
    (by decide) (by decide)

/-- C7, counterexample: the first `udp2stream_stop` on a fresh sender session
closes the socket, cancels the registrations and frees the session; a second
one on the same session reads freed memory and has no defined result. -/
theorem teardown_twice_counterexample :
    (udp2stream_stop sender0).map (fun r => (r.1.freed, r.2))
        = some (true, [Effect.event_del_sock, Effect.close 3, Effect.event_del_stream,
            Effect.signal_del_sigint, Effect.signal_del_sigterm, Effect.free])
      ∧ ((udp2stream_stop sender0).bind (fun r => udp2stream_stop r.1)).map
          (fun r => (r.1.freed, r.2)) = none := by
  decide

/-- C7 as amended: teardown is guarded by the descriptor values and happens at
most once per session.  On a live session `udp2stream_stop` makes, in this
order, `event_del` and `close` on the socket only when `sock >= 0`,
`event_del` on the stream only when `streamin >= 0`, then always `signal_del`
for both signals and `free`; it leaves the session freed, with `sock` and
`streamin` set to `-1` where they were valid and the other members unchanged.
On a live session whose two descriptors are already negative it makes only the
two `signal_del` calls and `free` and changes no member.  Over any sequence of
activations from a live session, the teardown calls made are either none (the
session is still alive) or exactly those of one `udp2stream_stop` (the session
is freed). -/
theorem teardown_guarded (p : Proc) (acts : List Activation) (hlive : p.freed = false) :
    (∃ p1, udp2stream_stop p
          = some (p1,
              (if 0 ≤ p.self.sock then [Effect.event_del_sock, Effect.close p.self.sock]
                else [])
              ++ (if 0 ≤ p.self.streamin then [Effect.event_del_stream] else [])
              ++ [Effect.signal_del_sigint, Effect.signal_del_sigterm, Effect.free])
        ∧ p1.freed = true
        ∧ p1.self.sock = (if 0 ≤ p.self.sock then -1 else p.self.sock)
        ∧ p1.self.streamin = (if 0 ≤ p.self.streamin then -1 else p.self.streamin)
        ∧ p1.self.sock < 0 ∧ p1.self.streamin < 0
        ∧ p1.self.mode = p.self.mode ∧ p1.self.connected = p.self.connected
        ∧ p1.self.streamout = p.self.streamout
        ∧ p1.udp_packet = p.udp_packet ∧ p1.stream_data = p.stream_data
        ∧ p1.input = p.input)
    ∧ (p.self.sock < 0 → p.self.streamin < 0 →
        ∃ p1, udp2stream_stop p
            = some (p1, [Effect.signal_del_sigint, Effect.signal_del_sigterm, Effect.free])
          ∧ p1.freed = true ∧ p1.self = p.self)
    ∧ (∃ p2 eff, run p acts = some (p2, eff)
        ∧ ((p2.freed = false ∧ teardown_calls eff = [])
          ∨ (p2.freed = true
              ∧ teardown_calls eff
                = (if 0 ≤ p.self.sock then [Effect.event_del_sock, Effect.close p.self.sock]
                    else [])
                  ++ (if 0 ≤ p.self.streamin then [Effect.event_del_stream] else [])
                  ++ [Effect.signal_del_sigint, Effect.signal_del_sigterm, Effect.free]))) := by
  refine ⟨⟨_, udp2stream_stop_eq p hlive, rfl, rfl, rfl, ?_, ?_, rfl, rfl, rfl, rfl, rfl, rfl⟩,
    ?_, ?_⟩
  · simp only [stopped]; split_ifs <;> omega
  · simp only [stopped]; split_ifs <;> omega
  · intro h1 h2
    have g1 : ¬ 0 ≤ p.self.sock := by omega
    have g2 : ¬ 0 ≤ p.self.streamin := by omega
    refine ⟨{ p with self := stopped p.self, freed := true }, ?_, rfl, ?_⟩
    · rw [udp2stream_stop_eq p hlive]
      simp [stop_effects, g1, g2]
    · simp [stopped, g1, g2]
  · obtain ⟨p2, eff, h, hcase⟩ := run_tears acts p hlive
    refine ⟨p2, eff, h, ?_⟩
    rcases hcase with ⟨hf, ht, _, _⟩ | ⟨hf, ht⟩
    · exact Or.inl ⟨hf, ht⟩
    · exact Or.inr ⟨hf, ht⟩

/-- Witness of `teardown_guarded`: a fresh sender session; its stream input is
at end of file in the first activation, and two more activations are offered
after that. -/
theorem teardown_guarded_witness :
    (∃ p1, udp2stream_stop sender0
          = some (p1,
              (if 0 ≤ sender0.self.sock then
                  [Effect.event_del_sock, Effect.close sender0.self.sock]
                else [])
              ++ (if 0 ≤ sender0.self.streamin then [Effect.event_del_stream] else [])
              ++ [Effect.signal_del_sigint, Effect.signal_del_sigterm, Effect.free])
        ∧ p1.freed = true
        ∧ p1.self.sock = (if 0 ≤ sender0.self.sock then -1 else sender0.self.sock)
        ∧ p1.self.streamin = (if 0 ≤ sender0.self.streamin then -1 else sender0.self.streamin)
        ∧ p1.self.sock < 0 ∧ p1.self.streamin < 0
        ∧ p1.self.mode = sender0.self.mode ∧ p1.self.connected = sender0.self.connected
        ∧ p1.self.streamout = sender0.self.streamout
        ∧ p1.udp_packet = sender0.udp_packet ∧ p1.stream_data = sender0.stream_data
        ∧ p1.input = sender0.input)
    ∧ (sender0.self.sock < 0 → sender0.self.streamin < 0 →
        ∃ p1, udp2stream_stop sender0
            = some (p1, [Effect.signal_del_sigint, Effect.signal_del_sigterm, Effect.free])
          ∧ p1.freed = true ∧ p1.self = sender0.self)
    ∧ (∃ p2 eff, run sender0
          [Activation.stream EV_READ ⟨ReadRes.avail 8, ReadRes.avail 0, SendRes.sent⟩,
           Activation.udp EV_READ ⟨RecvRes.datagram 7 [1, 2], false, true⟩,
           Activation.stream EV_READ ⟨ReadRes.avail 8, ReadRes.avail 0, SendRes.sent⟩]
          = some (p2, eff)
        ∧ ((p2.freed = false ∧ teardown_calls eff = [])
          ∨ (p2.freed = true
              ∧ teardown_calls eff
                = (if 0 ≤ sender0.self.sock then
                      [Effect.event_del_sock, Effect.close sender0.self.sock]
                    else [])
                  ++ (if 0 ≤ sender0.self.streamin then [Effect.event_del_stream] else [])
                  ++ [Effect.signal_del_sigint, Effect.signal_del_sigterm, Effect.free]))) :=
  teardown_guarded sender0
    [Activation.stream EV_READ ⟨ReadRes.avail 8, ReadRes.avail 0, SendRes.sent⟩,
     Activation.udp EV_READ ⟨RecvRes.datagram 7 [1, 2], false, true⟩,
     Activation.stream EV_READ ⟨ReadRes.avail 8, ReadRes.avail 0, SendRes.sent⟩] rfl

/-- C8, counterexample: a fresh receiver session receives the datagram `abc`,
`connect` succeeds, and the activation writes the frame of `abc` to the stream
output. -/
theorem receiver_forwards_counterexample :
    (udp_on_io (receiver0 []) EV_READ ⟨RecvRes.datagram 7 [0x61, 0x62, 0x63], true, true⟩).map
        (fun r => (r.1.self.connected, writes r.2))
      = some (1, [(1, [0xDE, 0xAD, 0xBE, 0xAF, 0, 3, 0, 0, 0x61, 0x62, 0x63])]) := by
  decide

/-- C8 as amended: in receiver mode `udp_on_io` forwards inbound datagrams as
in sender mode (the mode is not consulted): for every datagram of at most
65535 bytes it receives, the first one (after a successful `connect`) and any
later one, the activation writes the frame of the payload to the stream
output, sends nothing on the socket, and leaves `connected` non-zero. -/
theorem receiver_forwards (p : Proc) (evmask src : Nat) (P : List Nat) (conn wr : Bool)
    (_hmode : p.self.mode = MODE.RECEIVER) (hlive : p.freed = false)
    (hev : evmask &&& EV_READ ≠ 0) (hP : P.length ≤ 65535)
    (hres : p.udp_packet 6 = 0 ∧ p.udp_packet 7 = 0)
    (hc : p.self.connected ≠ 0 ∨ conn = true) :
    ∃ p1 eff, udp_on_io p evmask ⟨RecvRes.datagram src P, conn, wr⟩ = some (p1, eff)
      ∧ writes eff = [(p.self.streamout, spec_frame P)]
      ∧ sends eff = []
      ∧ p1.self.connected ≠ 0 := by
  obtain ⟨p1, eff, h1, hw, hs, _, hcc, _⟩ :=
    udp_on_io_datagram p evmask src P conn wr hlive hev hc
  have htake : P.take 65535 = P := List.take_of_length_le hP
  refine ⟨p1, eff, h1, ?_, hs, ?_⟩
  · rw [hw, htake, hres.1, hres.2, Nat.mod_eq_of_lt (show P.length < 65536 by omega)]
    rfl
  · rw [hcc]
    split_ifs with h0
    · decide
    · exact h0

/-- Witness of `receiver_forwards`: the first datagram of a fresh receiver session. -/
theorem receiver_forwards_witness :
    ∃ p1 eff, udp_on_io (receiver0 []) EV_READ ⟨RecvRes.datagram 7 [0x68, 0x69], true, true⟩
        = some (p1, eff)
      ∧ writes eff = [((receiver0 []).self.streamout, spec_frame [0x68, 0x69])]
      ∧ sends eff = []
      ∧ p1.self.connected ≠ 0 :=
  receiver_forwards (receiver0 []) EV_READ 7 [0x68, 0x69] true true rfl rfl (by decide)
    (by decide) ⟨rfl, rfl⟩ (Or.inr rfl)

/-- C10, the code at the failing input: a receiver latches on a first datagram,
then reads the frame of `wxyz` in full and sends it; in the next activation the
header announces 4 bytes, the payload read returns only `ab`, and `send` is
given 4 bytes of the static buffer: `ab` followed by the `yz` left from the
previous frame. -/
theorem short_payload_read_sends_stale_bytes :
    (run (receiver0 ([0xDE, 0xAD, 0xBE, 0xAF, 0, 4, 0, 0, 0x77, 0x78, 0x79, 0x7A]
          ++ [0xDE, 0xAD, 0xBE, 0xAF, 0, 4, 0, 0, 0x61, 0x62, 0x63, 0x64]))
        [Activation.udp EV_READ ⟨RecvRes.datagram 7 [], true, true⟩,
         Activation.stream EV_READ ⟨ReadRes.avail 8, ReadRes.avail 4, SendRes.sent⟩,
         Activation.stream EV_READ ⟨ReadRes.avail 8, ReadRes.avail 2, SendRes.sent⟩]).map
        (fun r => (reads r.2, sends r.2, r.1.input, r.1.freed))
      = some ([(0, 8), (0, 4), (0, 8), (0, 4)],
          [(3, [0x77, 0x78, 0x79, 0x7A]), (3, [0x61, 0x62, 0x79, 0x7A])],
          [0x63, 0x64], false) := by
  decide

end Udpstream
